import Mathlib

/-!
Verification of the core of the `InfoSec-e2ee-messaging` repository:
symmetric message protection (`frontend/src/utils/crypto.js`), the
ECDH-based key exchange (`frontend/src/utils/keyExchange.js`), the
server-side replay-protection middleware (`backend/middleware/
replayProtection.js`, with its `MessageSequence` model), and the
client-side sequence manager (`frontend/src/utils/sequenceManager.js`).

JavaScript values are embedded as follows: byte arrays (`Uint8Array`)
become `List Nat`, identifiers and nonces become `String`, JS numbers
used as epoch-millisecond timestamps and sequence numbers become `Int`,
`undefined`/`null` become `Option.none`, and fallible operations return
`Option`/`Except` or are driven by an explicit environment of
success/failure flags.
-/

namespace E2EE

/-! ## MessageCipher (frontend/src/utils/crypto.js)

The AES-256-GCM primitive itself is provided by the browser
(`window.crypto.subtle`) and is not part of this repository.

Modelled from the spec: `AES-GCM` authenticated encryption with a
128-bit (16-byte) tag appended to the ciphertext.  The spec promises
that authenticated decryption "fails with `DecryptionFailed` (no partial
output) on any tag mismatch or corrupted input", so the model is an
ideal authenticated cipher: the ciphertext body is the plaintext masked
with a keystream determined by key and IV, and the 16-byte trailing tag
authenticates the triple (key, IV, ciphertext body) exactly.  The toy
keystream and the injective tag encoding stand in for the CTR keystream
and GHASH of real AES-GCM; everything *around* the primitive (tag
splitting in `encryptMessage`, reassembly in `decryptMessage`) is
translated from the source. -/

/-- Injective encoding of a byte list into a single natural number,
used by the ideal tag. -/
def encodeL : List Nat → Nat
  | [] => 0
  | a :: l => Nat.pair a (encodeL l) + 1

/-- Injective encoding of the (key, iv, ciphertext) triple. -/
def encodeTriple (key iv ct : List Nat) : Nat :=
  Nat.pair (encodeL key) (Nat.pair (encodeL iv) (encodeL ct))

/-- The ideal 16-byte authentication tag over (key, iv, ciphertext). -/
def gcmTag (key iv ct : List Nat) : List Nat :=
  List.replicate 15 0 ++ [encodeTriple key iv ct]

/-- Toy CTR-style keystream of `n` bytes determined by key and iv. -/
def keystream (key iv : List Nat) (n : Nat) : List Nat :=
  (List.range n).map (fun i => (encodeTriple key iv [] + i) % 256)

/-- Pointwise XOR of two byte lists (truncating to the shorter). -/
def xorBytes (a b : List Nat) : List Nat :=
  List.zipWith (fun x y => x ^^^ y) a b

/-- Ideal AES-GCM encryption: returns ciphertext with the 16-byte tag
appended, as `crypto.subtle.encrypt` does. -/
def gcmEncrypt (key iv pt : List Nat) : List Nat :=
  let ct := xorBytes pt (keystream key iv pt.length)
  ct ++ gcmTag key iv ct

/-- Ideal AES-GCM decryption of a ciphertext-with-appended-tag: checks
the trailing 16-byte tag and either returns the full plaintext or fails
with no partial output, as `crypto.subtle.decrypt` does. -/
def gcmDecrypt (key iv data : List Nat) : Option (List Nat) :=
  if data.length < 16 then none
  else
    let ct := data.take (data.length - 16)
    let tg := data.drop (data.length - 16)
    if tg = gcmTag key iv ct then
      some (xorBytes ct (keystream key iv ct.length))
    else none

/-- The `\x7bciphertext, iv, tag\x7d` triple returned by
`encryptMessage` (each field is base64 in the source; base64
encoding/decoding by `btoa`/`atob` is a bijection on byte lists and is
elided, so fields are kept as byte lists). -/
structure EncryptedMessage where
  ciphertext : List Nat
  iv : List Nat
  tag : List Nat
  deriving Repr, DecidableEq

/-- `encryptMessage` (crypto.js lines 241-296): encrypts under
AES-256-GCM with a 128-bit tag, then splits the result into the
ciphertext body (`slice(0, -16)`) and the 16-byte tag (`slice(-16)`).
The 12-byte random IV produced by `crypto.getRandomValues` is taken as
the `iv` argument. -/
def encryptMessage (plaintextBytes sessionKey iv : List Nat) : EncryptedMessage :=
  let encryptedArray := gcmEncrypt sessionKey iv plaintextBytes
  { ciphertext := encryptedArray.take (encryptedArray.length - 16)
    iv := iv
    tag := encryptedArray.drop (encryptedArray.length - 16) }

/-- `decryptMessage` (crypto.js lines 306-337): re-concatenates
ciphertext and tag and performs authenticated decryption; `none` embeds
the thrown `Failed to decrypt message` error (`DecryptionFailed`). -/
def decryptMessage (ciphertext iv tag sessionKey : List Nat) : Option (List Nat) :=
  gcmDecrypt sessionKey iv (ciphertext ++ tag)

/-- Flip bit `k` of byte `i` of a byte list (out-of-range `i` leaves
the list unchanged; the theorems require `i` in range). -/
def flipBit (l : List Nat) (i k : Nat) : List Nat :=
  l.set i (l.getD i 0 ^^^ 2 ^ k)

/-! Helper lemmas for the cipher. -/

theorem encodeL_injective : Function.Injective encodeL := by
  intro a
  induction a with
  | nil =>
    intro b h
    cases b with
    | nil => rfl
    | cons y ys => simp [encodeL] at h
  | cons x xs ih =>
    intro b h
    cases b with
    | nil => simp [encodeL] at h
    | cons y ys =>
      simp only [encodeL, Nat.add_right_cancel_iff] at h
      have h2 := Nat.pair_eq_pair.mp h
      rw [h2.1, ih h2.2]

theorem encodeTriple_inj {k1 i1 c1 k2 i2 c2 : List Nat}
    (h : encodeTriple k1 i1 c1 = encodeTriple k2 i2 c2) :
    k1 = k2 ∧ i1 = i2 ∧ c1 = c2 := by
  unfold encodeTriple at h
  have h1 := Nat.pair_eq_pair.mp h
  have h2 := Nat.pair_eq_pair.mp h1.2
  exact ⟨encodeL_injective h1.1, encodeL_injective h2.1, encodeL_injective h2.2⟩

theorem gcmTag_inj {k1 i1 c1 k2 i2 c2 : List Nat}
    (h : gcmTag k1 i1 c1 = gcmTag k2 i2 c2) :
    k1 = k2 ∧ i1 = i2 ∧ c1 = c2 := by
  unfold gcmTag at h
  have := List.append_cancel_left h
  simp only [List.cons.injEq] at this
  exact encodeTriple_inj this.1

@[simp] theorem gcmTag_length (key iv ct : List Nat) : (gcmTag key iv ct).length = 16 := by
  simp [gcmTag]

theorem xorBytes_xorBytes (p : List Nat) :
    ∀ k : List Nat, p.length ≤ k.length → xorBytes (xorBytes p k) k = p := by
  induction p with
  | nil => intro k _; simp [xorBytes]
  | cons a p ih =>
    intro k hk
    cases k with
    | nil => simp at hk
    | cons b k =>
      simp only [xorBytes, List.zipWith_cons_cons, List.cons.injEq]
      refine ⟨?_, ih k (by simpa using hk)⟩
      exact Nat.xor_cancel_right b a

@[simp] theorem keystream_length (key iv : List Nat) (n : Nat) :
    (keystream key iv n).length = n := by
  simp [keystream]

theorem xorBytes_length_of_le {p k : List Nat} (h : p.length ≤ k.length) :
    (xorBytes p k).length = p.length := by
  simp [xorBytes, Nat.min_eq_left h]

/-- The ciphertext body of the ideal cipher. -/
def gcmBody (key iv pt : List Nat) : List Nat :=
  xorBytes pt (keystream key iv pt.length)

@[simp] theorem gcmBody_length (key iv pt : List Nat) :
    (gcmBody key iv pt).length = pt.length := by
  simp [gcmBody, xorBytes]

theorem gcmEncrypt_eq (key iv pt : List Nat) :
    gcmEncrypt key iv pt = gcmBody key iv pt ++ gcmTag key iv (gcmBody key iv pt) := rfl

theorem encryptMessage_ciphertext (pt key iv : List Nat) :
    (encryptMessage pt key iv).ciphertext = gcmBody key iv pt := by
  show (gcmEncrypt key iv pt).take ((gcmEncrypt key iv pt).length - 16) = gcmBody key iv pt
  rw [gcmEncrypt_eq]
  have h : (gcmBody key iv pt ++ gcmTag key iv (gcmBody key iv pt)).length - 16
      = (gcmBody key iv pt).length := by simp
  rw [h, List.take_left]

theorem encryptMessage_tag (pt key iv : List Nat) :
    (encryptMessage pt key iv).tag = gcmTag key iv (gcmBody key iv pt) := by
  show (gcmEncrypt key iv pt).drop ((gcmEncrypt key iv pt).length - 16)
      = gcmTag key iv (gcmBody key iv pt)
  rw [gcmEncrypt_eq]
  have h : (gcmBody key iv pt ++ gcmTag key iv (gcmBody key iv pt)).length - 16
      = (gcmBody key iv pt).length := by simp
  rw [h, List.drop_left]

theorem encryptMessage_iv (pt key iv : List Nat) :
    (encryptMessage pt key iv).iv = iv := rfl

/-- Decryption of body and matching tag succeeds with the plaintext. -/
theorem gcmDecrypt_of_parts (key iv ct tg : List Nat) (hlen : tg.length = 16) :
    gcmDecrypt key iv (ct ++ tg) =
      if tg = gcmTag key iv ct then
        some (xorBytes ct (keystream key iv ct.length))
      else none := by
  unfold gcmDecrypt
  have hl : (ct ++ tg).length = ct.length + 16 := by simp [hlen]
  have h1 : ¬ (ct ++ tg).length < 16 := by omega
  have h2 : (ct ++ tg).length - 16 = ct.length := by omega
  rw [if_neg h1, h2]
  simp

@[simp] theorem flipBit_length (l : List Nat) (i k : Nat) :
    (flipBit l i k).length = l.length := by
  simp [flipBit]

theorem flipBit_ne {l : List Nat} {i : Nat} (k : Nat) (hi : i < l.length) :
    flipBit l i k ≠ l := by
  intro h
  have h1 : (flipBit l i k).getD i 0 = l.getD i 0 := by rw [h]
  unfold flipBit at h1
  rw [List.getD_eq_getElem (l.set i (l.getD i 0 ^^^ 2 ^ k)) 0 (by simpa using hi)] at h1
  rw [List.getElem_set_self (by simpa using hi)] at h1
  rw [List.getD_eq_getElem l 0 hi] at h1
  have h2 : l[i] ^^^ 2 ^ k = l[i] ^^^ 0 := by
    rw [Nat.xor_zero]
    exact h1
  have h3 := Nat.xor_right_injective h2
  exact absurd h3 (Nat.pos_iff_ne_zero.mp (Nat.pos_pow_of_pos k (by norm_num)))

/-- Round trip of the embedded `encryptMessage`/`decryptMessage` pair. -/
theorem decryptMessage_encryptMessage (pt sessionKey iv : List Nat) :
    decryptMessage (encryptMessage pt sessionKey iv).ciphertext
      (encryptMessage pt sessionKey iv).iv
      (encryptMessage pt sessionKey iv).tag sessionKey = some pt := by
  rw [decryptMessage, encryptMessage_ciphertext, encryptMessage_iv, encryptMessage_tag]
  rw [gcmDecrypt_of_parts _ _ _ _ (gcmTag_length _ _ _)]
  rw [if_pos rfl]
  rw [gcmBody, xorBytes_length_of_le (by simp)]
  rw [xorBytes_xorBytes pt _ (by simp)]

theorem decrypt_flip_ciphertext (pt sessionKey iv : List Nat) {i : Nat} (k : Nat)
    (hi : i < (encryptMessage pt sessionKey iv).ciphertext.length) :
    decryptMessage (flipBit (encryptMessage pt sessionKey iv).ciphertext i k)
      (encryptMessage pt sessionKey iv).iv
      (encryptMessage pt sessionKey iv).tag sessionKey = none := by
  rw [encryptMessage_ciphertext] at hi ⊢
  rw [decryptMessage, encryptMessage_iv, encryptMessage_tag]
  rw [gcmDecrypt_of_parts _ _ _ _ (gcmTag_length _ _ _)]
  rw [if_neg]
  intro h
  exact flipBit_ne k hi (gcmTag_inj h.symm).2.2

theorem decrypt_flip_iv (pt sessionKey iv : List Nat) {i : Nat} (k : Nat)
    (hi : i < iv.length) :
    decryptMessage (encryptMessage pt sessionKey iv).ciphertext
      (flipBit iv i k)
      (encryptMessage pt sessionKey iv).tag sessionKey = none := by
  rw [decryptMessage, encryptMessage_ciphertext, encryptMessage_tag]
  rw [gcmDecrypt_of_parts _ _ _ _ (gcmTag_length _ _ _)]
  rw [if_neg]
  intro h
  exact flipBit_ne k hi (gcmTag_inj h).2.1.symm

theorem decrypt_flip_tag (pt sessionKey iv : List Nat) {i : Nat} (k : Nat)
    (hi : i < (encryptMessage pt sessionKey iv).tag.length) :
    decryptMessage (encryptMessage pt sessionKey iv).ciphertext
      (encryptMessage pt sessionKey iv).iv
      (flipBit (encryptMessage pt sessionKey iv).tag i k) sessionKey = none := by
  rw [encryptMessage_tag] at hi ⊢
  rw [decryptMessage, encryptMessage_ciphertext, encryptMessage_iv]
  rw [gcmDecrypt_of_parts _ _ _ _ (by simp)]
  rw [if_neg]
  intro h
  exact flipBit_ne k hi h

/-- C1: for every session key and plaintext, decrypting the
(ciphertext, iv, tag) triple produced by `encryptMessage` with the same
key returns exactly the plaintext; and flipping any bit of the
ciphertext, the IV, or the tag makes `decryptMessage` fail
(`DecryptionFailed`, embedded as `none`) with no partial plaintext
output. -/
theorem C1_encrypt_decrypt_roundtrip_tamper (sessionKey iv pt : List Nat) :
    (decryptMessage (encryptMessage pt sessionKey iv).ciphertext
      (encryptMessage pt sessionKey iv).iv
      (encryptMessage pt sessionKey iv).tag sessionKey = some pt) ∧
    (∀ i k : Nat, i < (encryptMessage pt sessionKey iv).ciphertext.length →
      decryptMessage (flipBit (encryptMessage pt sessionKey iv).ciphertext i k)
        (encryptMessage pt sessionKey iv).iv
        (encryptMessage pt sessionKey iv).tag sessionKey = none) ∧
    (∀ i k : Nat, i < iv.length →
      decryptMessage (encryptMessage pt sessionKey iv).ciphertext
        (flipBit iv i k)
        (encryptMessage pt sessionKey iv).tag sessionKey = none) ∧
    (∀ i k : Nat, i < (encryptMessage pt sessionKey iv).tag.length →
      decryptMessage (encryptMessage pt sessionKey iv).ciphertext
        (encryptMessage pt sessionKey iv).iv
        (flipBit (encryptMessage pt sessionKey iv).tag i k) sessionKey = none) :=
  ⟨decryptMessage_encryptMessage pt sessionKey iv,
   fun _ k hi => decrypt_flip_ciphertext pt sessionKey iv k hi,
   fun _ k hi => decrypt_flip_iv pt sessionKey iv k hi,
   fun _ k hi => decrypt_flip_tag pt sessionKey iv k hi⟩

/-- Concrete witness for C1 at key `[1, 2]`, IV `[3, 0, 1]`, plaintext
`[5, 6]`: the round trip succeeds and flipping bit 0 of byte 0 of each
of ciphertext, IV and tag makes decryption fail. -/
theorem C1_witness :
    (decryptMessage (encryptMessage ([5, 6]) ([1, 2]) ([3, 0, 1])).ciphertext
      (encryptMessage ([5, 6]) ([1, 2]) ([3, 0, 1])).iv
      (encryptMessage ([5, 6]) ([1, 2]) ([3, 0, 1])).tag ([1, 2]) = some ([5, 6])) ∧
    (decryptMessage (flipBit (encryptMessage ([5, 6]) ([1, 2]) ([3, 0, 1])).ciphertext 0 0)
      (encryptMessage ([5, 6]) ([1, 2]) ([3, 0, 1])).iv
      (encryptMessage ([5, 6]) ([1, 2]) ([3, 0, 1])).tag ([1, 2]) = none) ∧
    (decryptMessage (encryptMessage ([5, 6]) ([1, 2]) ([3, 0, 1])).ciphertext
      (flipBit ([3, 0, 1]) 0 0)
      (encryptMessage ([5, 6]) ([1, 2]) ([3, 0, 1])).tag ([1, 2]) = none) ∧
    (decryptMessage (encryptMessage ([5, 6]) ([1, 2]) ([3, 0, 1])).ciphertext
      (encryptMessage ([5, 6]) ([1, 2]) ([3, 0, 1])).iv
      (flipBit (encryptMessage ([5, 6]) ([1, 2]) ([3, 0, 1])).tag 0 0) ([1, 2]) = none) := by
  have h := C1_encrypt_decrypt_roundtrip_tamper ([1, 2]) ([3, 0, 1]) ([5, 6])
  exact ⟨h.1, h.2.1 0 0 (by decide), h.2.2.1 0 0 (by decide), h.2.2.2 0 0 (by decide)⟩

/-! ## ReplayGuard (backend/middleware/replayProtection.js with
backend/models/MessageSequence.model.js)

The middleware is `async` JavaScript acting on one MongoDB document per
exchange id.  It is embedded as a pure state transformer on
`Option MessageSequenceDoc` (the persisted record for the message's
exchange id, `none` when absent).  Mongoose document mutations are
in-memory until `save()`; the returned database state reflects exactly
the saves that executed.  Fallible operations (`findOne`, the `save()`
inside `cleanupOldEntries`, the security-logger calls, the final
`save()`) are driven by an environment of failure flags; any failure is
caught by the surrounding `try/catch`, which returns
`valid: true` (fail open). -/

/-- `TIMESTAMP_WINDOW` (replayProtection.js line 10): 5 minutes in ms. -/
def TIMESTAMP_WINDOW : Int := 5 * 60 * 1000

/-- Retention horizon of `cleanupOldEntries`
(MessageSequence.model.js line 66): one hour in ms. -/
def RETENTION_MS : Int := 60 * 60 * 1000

/-- An element of `usedNonces` in the MessageSequence schema. -/
structure NonceEntry where
  nonce : String
  timestamp : Int
  createdAt : Int
  deriving Repr, DecidableEq

/-- An element of `recentTimestamps` in the MessageSequence schema. -/
structure TimestampEntry where
  timestamp : Int
  createdAt : Int
  deriving Repr, DecidableEq

/-- The MessageSequence document (MessageSequence.model.js). -/
structure MessageSequenceDoc where
  exchangeId : String
  fromUserId : String
  toUserId : String
  sequenceFromTo : Int
  sequenceToFrom : Int
  usedNonces : List NonceEntry
  recentTimestamps : List TimestampEntry
  lastUpdated : Int
  deriving Repr, DecidableEq

/-- Which of the awaited operations inside `validateReplayProtection`
throw; any `true` flag makes the corresponding operation throw when it
is reached. -/
structure ReplayEnv where
  findFails : Bool
  cleanupSaveFails : Bool
  logFails : Bool
  saveFails : Bool
  deriving Repr, DecidableEq

/-- The environment in which every storage operation succeeds. -/
def ReplayEnv.ok : ReplayEnv :=
  { findFails := false, cleanupSaveFails := false, logFails := false, saveFails := false }

/-- Structured rejection reasons of `validateReplayProtection` (the
source returns reason strings; each constructor embeds one of them). -/
inductive ReplayReason where
  | userPairMismatch
  | sequenceTooOld (received expected : Int)
  | duplicateNonce (nonce : String)
  | timestampOutsideWindow (timeDiff : Int)
  | validationError
  deriving Repr, DecidableEq

/-- Reasons the spec taxonomy classifies as `ReplayDetected` (the two
paths that call `logReplayAttack`). -/
def ReplayReason.isReplayDetected : ReplayReason → Bool
  | .sequenceTooOld _ _ => true
  | .duplicateNonce _ => true
  | _ => false

/-- Reasons the spec taxonomy classifies as `StaleTimestamp` (the path
that calls `logInvalidRequest` with `INVALID_TIMESTAMP`). -/
def ReplayReason.isStaleTimestamp : ReplayReason → Bool
  | .timestampOutsideWindow _ => true
  | _ => false

/-- The `\x7bvalid, reason?\x7d` object returned by
`validateReplayProtection`. -/
structure ReplayResult where
  valid : Bool
  reason : Option ReplayReason
  deriving Repr, DecidableEq

/-- Full outcome of one validation: the returned result, the persisted
database state afterwards, and whether the `catch` block ran. -/
structure ReplayOutcome where
  result : ReplayResult
  db : Option MessageSequenceDoc
  caughtError : Bool
  deriving Repr, DecidableEq

/-- The fail-open value built in the `catch` block
(replayProtection.js lines 166-173). -/
def failOpenResult : ReplayResult :=
  { valid := true, reason := some ReplayReason.validationError }

/-- The fresh document created when `findOne` returns nothing
(replayProtection.js lines 36-47); `lastUpdated` gets the schema
default `Date.now`. -/
def newSequenceDoc (exchangeId fromUserId toUserId : String) (now : Int) :
    MessageSequenceDoc :=
  { exchangeId := exchangeId, fromUserId := fromUserId, toUserId := toUserId
    sequenceFromTo := 0, sequenceToFrom := 0
    usedNonces := [], recentTimestamps := [], lastUpdated := now }

/-- `cleanupOldEntries` (MessageSequence.model.js lines 65-77): drop
nonce and timestamp entries whose `createdAt` is not after
`now - 1 hour`.  (The method also saves; the save is handled at the
call site in the embedding.) -/
def cleanupOldEntries (doc : MessageSequenceDoc) (now : Int) : MessageSequenceDoc :=
  { doc with
    usedNonces := doc.usedNonces.filter (fun e => decide (now - RETENTION_MS < e.createdAt))
    recentTimestamps :=
      doc.recentTimestamps.filter (fun e => decide (now - RETENTION_MS < e.createdAt)) }

/-- Sequence-number validation (replayProtection.js lines 66-97),
skipped when `sequenceNumber` is `undefined`/`null`.  The source's
`> expected` and `=== expected` branches perform the identical
assignment and are merged.  `Except.error` is an early `return`;
when the `logReplayAttack` call itself throws, the `catch` turns the
rejection into the fail-open result. -/
def seqStage (env : ReplayEnv) (isFromTo : Bool) (doc : MessageSequenceDoc)
    (sequenceNumber : Option Int) : Except (ReplayResult × Bool) MessageSequenceDoc :=
  match sequenceNumber with
  | none => .ok doc
  | some s =>
    let expected := if isFromTo then doc.sequenceFromTo + 1 else doc.sequenceToFrom + 1
    if s < expected then
      if env.logFails then .error (failOpenResult, true)
      else .error ({ valid := false
                     reason := some (ReplayReason.sequenceTooOld s expected) }, false)
    else if isFromTo then .ok { doc with sequenceFromTo := s }
    else .ok { doc with sequenceToFrom := s }

/-- Nonce validation (replayProtection.js lines 99-124); the JS
`if (nonce)` guard makes `undefined`, `null` and the empty string skip
the check. -/
def nonceStage (env : ReplayEnv) (doc : MessageSequenceDoc)
    (nonce : Option String) (timestamp now : Int) :
    Except (ReplayResult × Bool) MessageSequenceDoc :=
  match nonce with
  | none => .ok doc
  | some n =>
    if n = "" then .ok doc
    else if doc.usedNonces.any (fun e => e.nonce == n) then
      if env.logFails then .error (failOpenResult, true)
      else .error ({ valid := false, reason := some (ReplayReason.duplicateNonce n) }, false)
    else .ok { doc with usedNonces := doc.usedNonces ++ [⟨n, timestamp, now⟩] }

/-- Timestamp validation (replayProtection.js lines 126-159); the JS
`if (timestamp)` guard makes `0` skip the check.  The
`duplicateTimestamp` lookup in the source has no effect (its branch is
empty) and is omitted. -/
def timestampStage (env : ReplayEnv) (doc : MessageSequenceDoc)
    (timestamp now : Int) : Except (ReplayResult × Bool) MessageSequenceDoc :=
  if timestamp = 0 then .ok doc
  else
    let timeDiff := |now - timestamp|
    if TIMESTAMP_WINDOW < timeDiff then
      if env.logFails then .error (failOpenResult, true)
      else .error ({ valid := false
                     reason := some (ReplayReason.timestampOutsideWindow timeDiff) }, false)
    else .ok { doc with recentTimestamps := doc.recentTimestamps ++ [⟨timestamp, now⟩] }

/-- `validateReplayProtection` (replayProtection.js lines 23-174) as a
state transformer on the persisted document for `exchangeId`.  Saves:
one inside `cleanupOldEntries`, one at the end (line 163); every early
`return` between them leaves the cleaned document as the persisted
state. -/
def validateReplayProtection (env : ReplayEnv) (db : Option MessageSequenceDoc)
    (exchangeId fromUserId toUserId : String) (sequenceNumber : Option Int)
    (nonce : Option String) (timestamp now : Int) : ReplayOutcome :=
  if env.findFails then ⟨failOpenResult, db, true⟩
  else
    let doc0 := db.getD (newSequenceDoc exchangeId fromUserId toUserId now)
    let cleaned := cleanupOldEntries doc0 now
    if env.cleanupSaveFails then ⟨failOpenResult, db, true⟩
    else
      let isFromTo := cleaned.fromUserId == fromUserId && cleaned.toUserId == toUserId
      let isToFrom := cleaned.toUserId == fromUserId && cleaned.fromUserId == toUserId
      if !isFromTo && !isToFrom then
        ⟨{ valid := false, reason := some ReplayReason.userPairMismatch }, some cleaned, false⟩
      else
        match seqStage env isFromTo cleaned sequenceNumber with
        | .error r => ⟨r.1, some cleaned, r.2⟩
        | .ok doc2 =>
          match nonceStage env doc2 nonce timestamp now with
          | .error r => ⟨r.1, some cleaned, r.2⟩
          | .ok doc3 =>
            match timestampStage env doc3 timestamp now with
            | .error r => ⟨r.1, some cleaned, r.2⟩
            | .ok doc4 =>
              if env.saveFails then ⟨failOpenResult, some cleaned, true⟩
              else ⟨{ valid := true, reason := none },
                    some { doc4 with lastUpdated := now }, false⟩

/-- The per-direction sequence counter (`sequenceFromTo` when the
message travels in the document's recorded from→to direction,
`sequenceToFrom` otherwise). -/
def dirCounter (isFromTo : Bool) (doc : MessageSequenceDoc) : Int :=
  if isFromTo then doc.sequenceFromTo else doc.sequenceToFrom

/-! Helper lemmas for the replay middleware. -/

@[simp] theorem cleanup_fromUserId (doc : MessageSequenceDoc) (now : Int) :
    (cleanupOldEntries doc now).fromUserId = doc.fromUserId := rfl

@[simp] theorem cleanup_toUserId (doc : MessageSequenceDoc) (now : Int) :
    (cleanupOldEntries doc now).toUserId = doc.toUserId := rfl

@[simp] theorem cleanup_sequenceFromTo (doc : MessageSequenceDoc) (now : Int) :
    (cleanupOldEntries doc now).sequenceFromTo = doc.sequenceFromTo := rfl

@[simp] theorem cleanup_sequenceToFrom (doc : MessageSequenceDoc) (now : Int) :
    (cleanupOldEntries doc now).sequenceToFrom = doc.sequenceToFrom := rfl

theorem seqStage_ok_counters {env : ReplayEnv} {b : Bool} {doc : MessageSequenceDoc}
    {seq : Option Int} {doc2 : MessageSequenceDoc}
    (h : seqStage env b doc seq = .ok doc2) :
    doc.sequenceFromTo ≤ doc2.sequenceFromTo ∧ doc.sequenceToFrom ≤ doc2.sequenceToFrom := by
  cases seq with
  | none =>
    simp only [seqStage] at h
    cases h
    exact ⟨le_refl _, le_refl _⟩
  | some s =>
    cases b with
    | true =>
      simp only [seqStage, if_true] at h
      split at h
      · split at h <;> exact Except.noConfusion h
      · rename_i hlt
        injection h with h2
        subst h2
        exact ⟨by simpa using (by omega : doc.sequenceFromTo ≤ s), le_refl _⟩
    | false =>
      simp only [seqStage, Bool.false_eq_true, if_false] at h
      split at h
      · split at h <;> exact Except.noConfusion h
      · rename_i hlt
        injection h with h2
        subst h2
        exact ⟨le_refl _, by simpa using (by omega : doc.sequenceToFrom ≤ s)⟩

theorem nonceStage_ok_fields {env : ReplayEnv} {doc : MessageSequenceDoc}
    {nonce : Option String} {ts now : Int} {doc3 : MessageSequenceDoc}
    (h : nonceStage env doc nonce ts now = .ok doc3) :
    doc3.sequenceFromTo = doc.sequenceFromTo ∧ doc3.sequenceToFrom = doc.sequenceToFrom ∧
    doc3.recentTimestamps = doc.recentTimestamps := by
  cases nonce with
  | none =>
    simp only [nonceStage] at h
    cases h
    exact ⟨rfl, rfl, rfl⟩
  | some n =>
    simp only [nonceStage] at h
    split at h
    · cases h; exact ⟨rfl, rfl, rfl⟩
    · split at h
      · split at h <;> exact Except.noConfusion h
      · injection h with h2
        subst h2
        exact ⟨rfl, rfl, rfl⟩

theorem timestampStage_ok_fields {env : ReplayEnv} {doc : MessageSequenceDoc}
    {ts now : Int} {doc4 : MessageSequenceDoc}
    (h : timestampStage env doc ts now = .ok doc4) :
    doc4.sequenceFromTo = doc.sequenceFromTo ∧ doc4.sequenceToFrom = doc.sequenceToFrom ∧
    doc4.usedNonces = doc.usedNonces := by
  simp only [timestampStage] at h
  split at h
  · cases h; exact ⟨rfl, rfl, rfl⟩
  · split at h
    · split at h <;> exact Except.noConfusion h
    · injection h with h2
      subst h2
      exact ⟨rfl, rfl, rfl⟩

theorem seqStage_error_shape {env : ReplayEnv} {b : Bool} {doc : MessageSequenceDoc}
    {seq : Option Int} {r : ReplayResult × Bool}
    (h : seqStage env b doc seq = .error r) :
    (r.2 = true ∧ r.1 = failOpenResult) ∨
    (r.2 = false ∧ ∃ s e, r.1 = { valid := false, reason := some (ReplayReason.sequenceTooOld s e) }) := by
  cases seq with
  | none => exact Except.noConfusion h
  | some s =>
    cases b with
    | true =>
      simp only [seqStage, if_true] at h
      split at h
      · split at h
        · injection h with h2
          subst h2
          exact Or.inl ⟨rfl, rfl⟩
        · injection h with h2
          subst h2
          exact Or.inr ⟨rfl, s, _, rfl⟩
      · exact Except.noConfusion h
    | false =>
      simp only [seqStage, Bool.false_eq_true, if_false] at h
      split at h
      · split at h
        · injection h with h2
          subst h2
          exact Or.inl ⟨rfl, rfl⟩
        · injection h with h2
          subst h2
          exact Or.inr ⟨rfl, s, _, rfl⟩
      · exact Except.noConfusion h

theorem nonceStage_error_shape {env : ReplayEnv} {doc : MessageSequenceDoc}
    {nonce : Option String} {ts now : Int} {r : ReplayResult × Bool}
    (h : nonceStage env doc nonce ts now = .error r) :
    (r.2 = true ∧ r.1 = failOpenResult) ∨
    (r.2 = false ∧ ∃ n, r.1 = { valid := false, reason := some (ReplayReason.duplicateNonce n) }) := by
  cases nonce with
  | none => exact Except.noConfusion h
  | some n =>
    simp only [nonceStage] at h
    split at h
    · exact Except.noConfusion h
    · split at h
      · split at h
        · injection h with h2
          subst h2
          exact Or.inl ⟨rfl, rfl⟩
        · injection h with h2
          subst h2
          exact Or.inr ⟨rfl, n, rfl⟩
      · exact Except.noConfusion h

theorem timestampStage_error_shape {env : ReplayEnv} {doc : MessageSequenceDoc}
    {ts now : Int} {r : ReplayResult × Bool}
    (h : timestampStage env doc ts now = .error r) :
    (r.2 = true ∧ r.1 = failOpenResult) ∨
    (r.2 = false ∧ ∃ d, r.1 = { valid := false, reason := some (ReplayReason.timestampOutsideWindow d) }) := by
  simp only [timestampStage] at h
  split at h
  · exact Except.noConfusion h
  · split at h
    · split at h
      · injection h with h2
        subst h2
        exact Or.inl ⟨rfl, rfl⟩
      · injection h with h2
        subst h2
        exact Or.inr ⟨rfl, _, rfl⟩
    · exact Except.noConfusion h

/-- Across one validation call, the persisted per-direction counters
never decrease, for every environment and every input. -/
theorem validate_counters_monotone (env : ReplayEnv) (doc : MessageSequenceDoc)
    (exchangeId fromUserId toUserId : String) (seq : Option Int) (nonce : Option String)
    (ts now : Int) (doc' : MessageSequenceDoc)
    (h : (validateReplayProtection env (some doc) exchangeId fromUserId toUserId
          seq nonce ts now).db = some doc') :
    doc.sequenceFromTo ≤ doc'.sequenceFromTo ∧ doc.sequenceToFrom ≤ doc'.sequenceToFrom := by
  simp only [validateReplayProtection, Option.getD_some] at h
  split at h
  · replace h : some doc = some doc' := h
    injection h with h2
    subst h2
    exact ⟨le_refl _, le_refl _⟩
  · split at h
    · replace h : some doc = some doc' := h
      injection h with h2
      subst h2
      exact ⟨le_refl _, le_refl _⟩
    · split at h
      · replace h : some (cleanupOldEntries doc now) = some doc' := h
        injection h with h2
        subst h2
        exact ⟨le_refl _, le_refl _⟩
      · split at h
        · replace h : some (cleanupOldEntries doc now) = some doc' := h
          injection h with h2
          subst h2
          exact ⟨le_refl _, le_refl _⟩
        · rename_i doc2 hseq
          split at h
          · replace h : some (cleanupOldEntries doc now) = some doc' := h
            injection h with h2
            subst h2
            exact ⟨le_refl _, le_refl _⟩
          · rename_i doc3 hnonce
            split at h
            · replace h : some (cleanupOldEntries doc now) = some doc' := h
              injection h with h2
              subst h2
              exact ⟨le_refl _, le_refl _⟩
            · rename_i doc4 hts
              have hc2 := seqStage_ok_counters hseq
              have hc3 := nonceStage_ok_fields hnonce
              have hc4 := timestampStage_ok_fields hts
              split at h
              · replace h : some (cleanupOldEntries doc now) = some doc' := h
                injection h with h2
                subst h2
                exact ⟨le_refl _, le_refl _⟩
              · replace h : some { doc4 with lastUpdated := now } = some doc' := h
                injection h with h2
                subst h2
                constructor
                · show doc.sequenceFromTo ≤ doc4.sequenceFromTo
                  rw [hc4.1, hc3.1]
                  simpa using hc2.1
                · show doc.sequenceToFrom ≤ doc4.sequenceToFrom
                  rw [hc4.2.1, hc3.2.1]
                  simpa using hc2.2

/-- For an environment whose `findOne` and cleanup save succeed and a
message whose sender/recipient pair matches the stored channel record
in direction `d` (`true` = from→to), `validateReplayProtection` is the
three-stage pipeline over the cleaned document. -/
theorem validate_run_matched (env : ReplayEnv) (doc : MessageSequenceDoc)
    (exchangeId fromUserId toUserId : String) (d : Bool)
    (henv1 : env.findFails = false) (henv2 : env.cleanupSaveFails = false)
    (hne : fromUserId ≠ toUserId)
    (hdir : if d then doc.fromUserId = fromUserId ∧ doc.toUserId = toUserId
            else doc.fromUserId = toUserId ∧ doc.toUserId = fromUserId)
    (seq : Option Int) (nonce : Option String) (ts now : Int) :
    validateReplayProtection env (some doc) exchangeId fromUserId toUserId seq nonce ts now =
      (match seqStage env d (cleanupOldEntries doc now) seq with
       | .error r => ⟨r.1, some (cleanupOldEntries doc now), r.2⟩
       | .ok doc2 =>
         match nonceStage env doc2 nonce ts now with
         | .error r => ⟨r.1, some (cleanupOldEntries doc now), r.2⟩
         | .ok doc3 =>
           match timestampStage env doc3 ts now with
           | .error r => ⟨r.1, some (cleanupOldEntries doc now), r.2⟩
           | .ok doc4 =>
             if env.saveFails then ⟨failOpenResult, some (cleanupOldEntries doc now), true⟩
             else ⟨{ valid := true, reason := none },
                   some { doc4 with lastUpdated := now }, false⟩) := by
  cases d with
  | true =>
    simp only [if_true] at hdir
    obtain ⟨h1, h2⟩ := hdir
    simp only [validateReplayProtection, Option.getD_some, henv1, henv2,
      Bool.false_eq_true, if_false, cleanup_fromUserId, cleanup_toUserId, h1, h2,
      beq_self_eq_true, Bool.and_self, Bool.not_true, Bool.false_and]
  | false =>
    simp only [Bool.false_eq_true, if_false] at hdir
    obtain ⟨h1, h2⟩ := hdir
    have hb1 : (toUserId == fromUserId) = false := by
      simp only [beq_eq_false_iff_ne, ne_eq]
      exact fun hc => hne hc.symm
    simp only [validateReplayProtection, Option.getD_some, henv1, henv2,
      Bool.false_eq_true, if_false, cleanup_fromUserId, cleanup_toUserId, h1, h2,
      hb1, beq_self_eq_true, Bool.and_self, Bool.not_true, Bool.not_false,
      Bool.false_and, Bool.and_false, Bool.true_and, Bool.and_true]

@[simp] theorem cleanup_dirCounter (d : Bool) (doc : MessageSequenceDoc) (now : Int) :
    dirCounter d (cleanupOldEntries doc now) = dirCounter d doc := by
  cases d <;> rfl

theorem seqStage_expected (b : Bool) (doc : MessageSequenceDoc) :
    (if b then doc.sequenceFromTo + 1 else doc.sequenceToFrom + 1) = dirCounter b doc + 1 := by
  cases b <;> rfl

theorem seqStage_reject {env : ReplayEnv} {b : Bool} {doc : MessageSequenceDoc} {s : Int}
    (hlog : env.logFails = false) (hlt : s < dirCounter b doc + 1) :
    seqStage env b doc (some s) =
      .error ({ valid := false
                reason := some (ReplayReason.sequenceTooOld s (dirCounter b doc + 1)) }, false) := by
  cases b with
  | true =>
    simp only [dirCounter, if_true] at hlt ⊢
    simp only [seqStage, if_true]
    rw [if_pos hlt, hlog]
    simp
  | false =>
    simp only [dirCounter, Bool.false_eq_true, if_false] at hlt ⊢
    simp only [seqStage, Bool.false_eq_true, if_false]
    rw [if_pos hlt, hlog]
    simp

/-- The document after the sequence check advances the counter of
direction `b` to `s`. -/
def seqUpdate (b : Bool) (doc : MessageSequenceDoc) (s : Int) : MessageSequenceDoc :=
  if b then { doc with sequenceFromTo := s } else { doc with sequenceToFrom := s }

theorem seqStage_accept {env : ReplayEnv} {b : Bool} {doc : MessageSequenceDoc} {s : Int}
    (hge : dirCounter b doc + 1 ≤ s) :
    seqStage env b doc (some s) = .ok (seqUpdate b doc s) := by
  cases b with
  | true =>
    simp only [dirCounter, if_true] at hge
    simp only [seqStage, seqUpdate, if_true]
    rw [if_neg hge.not_lt]
  | false =>
    simp only [dirCounter, Bool.false_eq_true, if_false] at hge
    simp only [seqStage, seqUpdate, Bool.false_eq_true, if_false]
    rw [if_neg hge.not_lt]

theorem dirCounter_update (d : Bool) (doc : MessageSequenceDoc) (s : Int) :
    dirCounter d (seqUpdate d doc s) = s := by
  cases d <;> rfl

theorem nonceStage_dup {env : ReplayEnv} {doc : MessageSequenceDoc} {n : String} {ts now : Int}
    (hlog : env.logFails = false) (hn : n ≠ "")
    (hdup : doc.usedNonces.any (fun e => e.nonce == n) = true) :
    nonceStage env doc (some n) ts now =
      .error ({ valid := false, reason := some (ReplayReason.duplicateNonce n) }, false) := by
  simp only [nonceStage]
  rw [if_neg hn, if_pos hdup, hlog]
  simp

theorem nonceStage_fresh {env : ReplayEnv} {doc : MessageSequenceDoc} {n : String} {ts now : Int}
    (hn : n ≠ "") (hdup : doc.usedNonces.any (fun e => e.nonce == n) = false) :
    nonceStage env doc (some n) ts now =
      .ok { doc with usedNonces := doc.usedNonces ++ [⟨n, ts, now⟩] } := by
  simp only [nonceStage]
  rw [if_neg hn, if_neg (by simp [hdup])]

theorem timestampStage_reject {env : ReplayEnv} {doc : MessageSequenceDoc} {ts now : Int}
    (hlog : env.logFails = false) (hts : ts ≠ 0) (hw : TIMESTAMP_WINDOW < |now - ts|) :
    timestampStage env doc ts now =
      .error ({ valid := false
                reason := some (ReplayReason.timestampOutsideWindow |now - ts|) }, false) := by
  simp only [timestampStage]
  rw [if_neg hts, if_pos hw, hlog]
  simp

theorem timestampStage_accept {env : ReplayEnv} {doc : MessageSequenceDoc} {ts now : Int}
    (hts : ts ≠ 0) (hw : |now - ts| ≤ TIMESTAMP_WINDOW) :
    timestampStage env doc ts now =
      .ok { doc with recentTimestamps := doc.recentTimestamps ++ [⟨ts, now⟩] } := by
  simp only [timestampStage]
  rw [if_neg hts, if_neg hw.not_lt]

theorem seqStage_error_of_logOk {env : ReplayEnv} {b : Bool} {doc : MessageSequenceDoc}
    {seq : Option Int} {r : ReplayResult × Bool} (hlog : env.logFails = false)
    (h : seqStage env b doc seq = .error r) :
    r.2 = false ∧ ∃ s e, r.1 = { valid := false, reason := some (ReplayReason.sequenceTooOld s e) } := by
  rcases seqStage_error_shape h with ⟨h2, _⟩ | ⟨h2, hex⟩
  · exfalso
    cases seq with
    | none => exact Except.noConfusion h
    | some s =>
      cases b with
      | true =>
        simp only [seqStage, if_true, hlog, Bool.false_eq_true, if_false] at h
        split at h
        · injection h with h3
          subst h3
          simp at h2
        · exact Except.noConfusion h
      | false =>
        simp only [seqStage, hlog, Bool.false_eq_true, if_false] at h
        split at h
        · injection h with h3
          subst h3
          simp at h2
        · exact Except.noConfusion h
  · exact ⟨h2, hex⟩

theorem nonceStage_error_of_logOk {env : ReplayEnv} {doc : MessageSequenceDoc}
    {nonce : Option String} {ts now : Int} {r : ReplayResult × Bool}
    (hlog : env.logFails = false)
    (h : nonceStage env doc nonce ts now = .error r) :
    r.2 = false ∧ ∃ n, r.1 = { valid := false, reason := some (ReplayReason.duplicateNonce n) } := by
  rcases nonceStage_error_shape h with ⟨h2, _⟩ | ⟨h2, hex⟩
  · exfalso
    cases nonce with
    | none => exact Except.noConfusion h
    | some n =>
      simp only [nonceStage, hlog, Bool.false_eq_true, if_false] at h
      split at h
      · exact Except.noConfusion h
      · split at h
        · injection h with h3
          subst h3
          simp at h2
        · exact Except.noConfusion h
  · exact ⟨h2, hex⟩

theorem timestampStage_error_of_logOk {env : ReplayEnv} {doc : MessageSequenceDoc}
    {ts now : Int} {r : ReplayResult × Bool} (hlog : env.logFails = false)
    (h : timestampStage env doc ts now = .error r) :
    r.2 = false ∧ ∃ d, r.1 = { valid := false, reason := some (ReplayReason.timestampOutsideWindow d) } := by
  rcases timestampStage_error_shape h with ⟨h2, _⟩ | ⟨h2, hex⟩
  · exfalso
    simp only [timestampStage, hlog, Bool.false_eq_true, if_false] at h
    split at h
    · exact Except.noConfusion h
    · split at h
      · injection h with h3
        subst h3
        simp at h2
      · exact Except.noConfusion h
  · exact ⟨h2, hex⟩

theorem dirCounter_congr {d : Bool} {doc1 doc2 : MessageSequenceDoc}
    (h1 : doc1.sequenceFromTo = doc2.sequenceFromTo)
    (h2 : doc1.sequenceToFrom = doc2.sequenceToFrom) :
    dirCounter d doc1 = dirCounter d doc2 := by
  cases d <;> simp [dirCounter, h1, h2]

/-- C2 counterexample: on a channel whose from→to counter is 0, a
message with sequence number 1 (which is ≥ expected = 1 and passes the
sequence check: the rejection reason is the duplicate nonce, not a
stale sequence) leaves the persisted counter at 0 rather than setting
it to 1, because the middleware returns before the final `save()`. -/
theorem C2_counterexample :
    ((0 : Int) + 1 ≤ 1) ∧
    (validateReplayProtection ReplayEnv.ok
      (some ⟨"e", "A", "B", 0, 0, [⟨"n1", 10000000, 10000000⟩], [], 0⟩)
      "e" "A" "B" (some 1) (some "n1") 10000000 10000000).result.reason =
        some (ReplayReason.duplicateNonce "n1") ∧
    (validateReplayProtection ReplayEnv.ok
      (some ⟨"e", "A", "B", 0, 0, [⟨"n1", 10000000, 10000000⟩], [], 0⟩)
      "e" "A" "B" (some 1) (some "n1") 10000000 10000000).db =
      some ⟨"e", "A", "B", 0, 0, [⟨"n1", 10000000, 10000000⟩], [], 0⟩ := by
  exact ⟨by norm_num, by decide, by decide⟩

/-- C2 (amended): for a validated message with sequence number `s` on a
channel whose stored counter for the message's direction is `c`: if
`s < c + 1` the message is rejected with `ReplayDetected` (stale
sequence, reason `sequenceTooOld`); if `s ≥ c + 1` the message passes
the sequence check (it is never rejected for a stale sequence) and,
whenever validation then succeeds, the persisted counter is set to `s`;
and for every environment and input the persisted per-direction
counters never decrease, so they are monotone across any sequence of
validations. -/
theorem C2_sequence_check (doc : MessageSequenceDoc)
    (exchangeId fromUserId toUserId : String) (d : Bool)
    (hne : fromUserId ≠ toUserId)
    (hdir : if d then doc.fromUserId = fromUserId ∧ doc.toUserId = toUserId
            else doc.fromUserId = toUserId ∧ doc.toUserId = fromUserId)
    (s : Int) (nonce : Option String) (ts now : Int) :
    (s < dirCounter d doc + 1 →
      (validateReplayProtection ReplayEnv.ok (some doc) exchangeId fromUserId toUserId
        (some s) nonce ts now).result =
        { valid := false
          reason := some (ReplayReason.sequenceTooOld s (dirCounter d doc + 1)) }) ∧
    (dirCounter d doc + 1 ≤ s →
      (∀ rc e, (validateReplayProtection ReplayEnv.ok (some doc) exchangeId fromUserId toUserId
        (some s) nonce ts now).result.reason ≠ some (ReplayReason.sequenceTooOld rc e)) ∧
      ((validateReplayProtection ReplayEnv.ok (some doc) exchangeId fromUserId toUserId
        (some s) nonce ts now).result.valid = true →
        ∃ doc', (validateReplayProtection ReplayEnv.ok (some doc) exchangeId fromUserId toUserId
          (some s) nonce ts now).db = some doc' ∧ dirCounter d doc' = s)) ∧
    (∀ env seq2 nonce2 ts2 doc',
      (validateReplayProtection env (some doc) exchangeId fromUserId toUserId
        seq2 nonce2 ts2 now).db = some doc' →
      dirCounter d doc ≤ dirCounter d doc') := by
  have hrun := validate_run_matched ReplayEnv.ok doc exchangeId fromUserId toUserId d
    rfl rfl hne hdir (some s) nonce ts now
  refine ⟨?_, ?_, ?_⟩
  · intro hlt
    rw [hrun, seqStage_reject rfl (by simpa using hlt)]
    simp
  · intro hge
    have hacc := @seqStage_accept ReplayEnv.ok d (cleanupOldEntries doc now) s
      (by simpa using hge)
    rw [hrun]
    simp only [hacc]
    rcases hnon : nonceStage ReplayEnv.ok
        (seqUpdate d (cleanupOldEntries doc now) s) nonce ts now with r | doc3
    · simp only [hnon]
      obtain ⟨h2, n, h1⟩ := nonceStage_error_of_logOk rfl hnon
      constructor
      · intro rc e
        simp [h1]
      · intro hv
        rw [h1] at hv
        simp at hv
    · simp only [hnon]
      rcases hts2 : timestampStage ReplayEnv.ok doc3 ts now with r | doc4
      · simp only [hts2]
        obtain ⟨h2, dd, h1⟩ := timestampStage_error_of_logOk rfl hts2
        constructor
        · intro rc e
          simp [h1]
        · intro hv
          rw [h1] at hv
          simp at hv
      · simp only [hts2]
        have hsave : ReplayEnv.ok.saveFails = false := rfl
        simp only [hsave, Bool.false_eq_true, if_false]
        constructor
        · intro rc e
          simp
        · intro _
          refine ⟨{ doc4 with lastUpdated := now }, by simp, ?_⟩
          have e3 := nonceStage_ok_fields hnon
          have e4 := timestampStage_ok_fields hts2
          have e5 : dirCounter d ({ doc4 with lastUpdated := now }) = dirCounter d doc4 := by
            cases d <;> rfl
          rw [e5, dirCounter_congr e4.1 e4.2.1, dirCounter_congr e3.1 e3.2.1,
            dirCounter_update]
  · intro env seq2 nonce2 ts2 doc' h
    have := validate_counters_monotone env doc exchangeId fromUserId toUserId
      seq2 nonce2 ts2 now doc' h
    cases d
    · exact this.2
    · exact this.1

/-- Witness for C2 at a concrete channel (counter 5 in the from→to
direction): sequence number 2 is rejected as stale with expected 6, and
the monotonicity part applied to an accepting run. -/
theorem C2_witness :
    (validateReplayProtection ReplayEnv.ok (some ⟨"e", "A", "B", 5, 0, [], [], 0⟩)
      "e" "A" "B" (some 2) (some "n2") 10000000 10000000).result =
      { valid := false, reason := some (ReplayReason.sequenceTooOld 2 6) } := by
  have h := (C2_sequence_check ⟨"e", "A", "B", 5, 0, [], [], 0⟩ "e" "A" "B" true
    (by decide) (by decide) 2 (some "n2") 10000000 10000000).1 (by decide)
  simpa using h

/-- C6: whenever an internal storage or logging error occurs during
`validateReplayProtection` (the `catch` block runs), the middleware
fails open: the returned result has `valid = true` and the message is
accepted rather than rejected. -/
theorem C6_fail_open_on_storage_error (env : ReplayEnv) (db : Option MessageSequenceDoc)
    (exchangeId fromUserId toUserId : String) (seq : Option Int) (nonce : Option String)
    (ts now : Int)
    (h : (validateReplayProtection env db exchangeId fromUserId toUserId
          seq nonce ts now).caughtError = true) :
    (validateReplayProtection env db exchangeId fromUserId toUserId
      seq nonce ts now).result.valid = true := by
  revert h
  simp only [validateReplayProtection]
  split
  · intro _
    rfl
  · split
    · intro _
      rfl
    · split
      · intro h
        simp at h
      · split
        · rename_i r hseqerr
          intro h
          replace h : r.2 = true := h
          rcases seqStage_error_shape hseqerr with ⟨_, h1⟩ | ⟨h2, _, _, _⟩
          · rw [show ({ result := r.1, db := some _, caughtError := r.2 }
                : ReplayOutcome).result = r.1 from rfl, h1]
            rfl
          · rw [h2] at h
            exact absurd h (by simp)
        · rename_i doc2 hseqok
          split
          · rename_i r hnonerr
            intro h
            replace h : r.2 = true := h
            rcases nonceStage_error_shape hnonerr with ⟨_, h1⟩ | ⟨h2, _, _⟩
            · rw [show ({ result := r.1, db := some _, caughtError := r.2 }
                  : ReplayOutcome).result = r.1 from rfl, h1]
              rfl
            · rw [h2] at h
              exact absurd h (by simp)
          · rename_i doc3 hnonok
            split
            · rename_i r htserr
              intro h
              replace h : r.2 = true := h
              rcases timestampStage_error_shape htserr with ⟨_, h1⟩ | ⟨h2, _, _⟩
              · rw [show ({ result := r.1, db := some _, caughtError := r.2 }
                    : ReplayOutcome).result = r.1 from rfl, h1]
                rfl
              · rw [h2] at h
                exact absurd h (by simp)
            · rename_i doc4 htsok
              split
              · intro _
                rfl
              · intro h
                simp at h

/-- Witness for C6: a message that a fully working store would reject
as a duplicate nonce is accepted (`valid = true`) when the save inside
`cleanupOldEntries` throws. -/
theorem C6_witness :
    (validateReplayProtection ⟨false, true, false, false⟩
      (some ⟨"e", "A", "B", 0, 0, [⟨"n1", 10000000, 10000000⟩], [], 0⟩)
      "e" "A" "B" (some 1) (some "n1") 10000000 10000000).result.valid = true ∧
    (validateReplayProtection ReplayEnv.ok
      (some ⟨"e", "A", "B", 0, 0, [⟨"n1", 10000000, 10000000⟩], [], 0⟩)
      "e" "A" "B" (some 1) (some "n1") 10000000 10000000).result.valid = false := by
  constructor
  · exact C6_fail_open_on_storage_error ⟨false, true, false, false⟩
      (some ⟨"e", "A", "B", 0, 0, [⟨"n1", 10000000, 10000000⟩], [], 0⟩)
      "e" "A" "B" (some 1) (some "n1") 10000000 10000000 (by decide)
  · decide

theorem seqStage_ok_usedNonces {env : ReplayEnv} {b : Bool} {doc : MessageSequenceDoc}
    {seq : Option Int} {doc2 : MessageSequenceDoc}
    (h : seqStage env b doc seq = .ok doc2) :
    doc2.usedNonces = doc.usedNonces ∧ doc2.recentTimestamps = doc.recentTimestamps := by
  cases seq with
  | none =>
    simp only [seqStage] at h
    cases h
    exact ⟨rfl, rfl⟩
  | some s =>
    cases b with
    | true =>
      simp only [seqStage, if_true] at h
      split at h
      · split at h <;> exact Except.noConfusion h
      · injection h with h2
        subst h2
        exact ⟨rfl, rfl⟩
    | false =>
      simp only [seqStage, Bool.false_eq_true, if_false] at h
      split at h
      · split at h <;> exact Except.noConfusion h
      · injection h with h2
        subst h2
        exact ⟨rfl, rfl⟩

/-- C3 counterexample: a message with a previously unseen nonce that is
rejected for a stale timestamp does not get its nonce recorded in the
persisted nonce set (the early return skips the final `save()`): the
persisted `usedNonces` list is still empty afterwards. -/
theorem C3_counterexample :
    (validateReplayProtection ReplayEnv.ok (some ⟨"e", "A", "B", 0, 0, [], [], 0⟩)
      "e" "A" "B" (some 1) (some "n9") 9400000 10000000).result =
      { valid := false, reason := some (ReplayReason.timestampOutsideWindow 600000) } ∧
    (validateReplayProtection ReplayEnv.ok (some ⟨"e", "A", "B", 0, 0, [], [], 0⟩)
      "e" "A" "B" (some 1) (some "n9") 9400000 10000000).db =
      some ⟨"e", "A", "B", 0, 0, [], [], 0⟩ := by
  exact ⟨by decide, by decide⟩

/-- C3 (amended): a message whose nonce already exists in the channel
nonce set is rejected with a `ReplayDetected`-class reason regardless
of the sequence outcome (`duplicateNonce` when the sequence check
passed, `sequenceTooOld` when it already failed); a message with a
previously unseen nonce gets the nonce recorded in the persisted set
whenever validation then succeeds (in-window timestamp and successful
final save). -/
theorem C3_nonce_check (doc : MessageSequenceDoc)
    (exchangeId fromUserId toUserId : String) (d : Bool)
    (hne : fromUserId ≠ toUserId)
    (hdir : if d then doc.fromUserId = fromUserId ∧ doc.toUserId = toUserId
            else doc.fromUserId = toUserId ∧ doc.toUserId = fromUserId)
    (seq : Option Int) (n : String) (hn : n ≠ "") (ts now : Int) :
    ((cleanupOldEntries doc now).usedNonces.any (fun e => e.nonce == n) = true →
      (validateReplayProtection ReplayEnv.ok (some doc) exchangeId fromUserId toUserId
        seq (some n) ts now).result.valid = false ∧
      ∃ r, (validateReplayProtection ReplayEnv.ok (some doc) exchangeId fromUserId toUserId
        seq (some n) ts now).result.reason = some r ∧ r.isReplayDetected = true) ∧
    ((cleanupOldEntries doc now).usedNonces.any (fun e => e.nonce == n) = false →
      (∀ sq, seq = some sq → dirCounter d doc + 1 ≤ sq) →
      ts ≠ 0 → |now - ts| ≤ TIMESTAMP_WINDOW →
      (validateReplayProtection ReplayEnv.ok (some doc) exchangeId fromUserId toUserId
        seq (some n) ts now).result.valid = true ∧
      ∃ doc', (validateReplayProtection ReplayEnv.ok (some doc) exchangeId fromUserId toUserId
        seq (some n) ts now).db = some doc' ∧
        doc'.usedNonces.any (fun e => e.nonce == n) = true) := by
  have hrun := validate_run_matched ReplayEnv.ok doc exchangeId fromUserId toUserId d
    rfl rfl hne hdir seq (some n) ts now
  constructor
  · intro hdup
    rw [hrun]
    rcases hseqr : seqStage ReplayEnv.ok d (cleanupOldEntries doc now) seq with r | doc2
    · simp only [hseqr]
      obtain ⟨h2, sq, e, h1⟩ := seqStage_error_of_logOk rfl hseqr
      rw [h1]
      exact ⟨rfl, ReplayReason.sequenceTooOld sq e, rfl, rfl⟩
    · simp only [hseqr]
      have hd2 : doc2.usedNonces.any (fun e => e.nonce == n) = true := by
        rw [(seqStage_ok_usedNonces hseqr).1]
        exact hdup
      rw [nonceStage_dup rfl hn hd2]
      exact ⟨rfl, ReplayReason.duplicateNonce n, rfl, rfl⟩
  · intro hfresh hseq hts hwin
    rw [hrun]
    have hseqok : ∃ doc2, seqStage ReplayEnv.ok d (cleanupOldEntries doc now) seq = .ok doc2 := by
      cases seq with
      | none => exact ⟨cleanupOldEntries doc now, rfl⟩
      | some sq =>
        refine ⟨_, seqStage_accept ?_⟩
        simpa using hseq sq rfl
    obtain ⟨doc2, hseqr⟩ := hseqok
    simp only [hseqr]
    have hd2 : doc2.usedNonces.any (fun e => e.nonce == n) = false := by
      rw [(seqStage_ok_usedNonces hseqr).1]
      exact hfresh
    simp only [nonceStage_fresh hn hd2, timestampStage_accept hts hwin]
    have hsave : ReplayEnv.ok.saveFails = false := rfl
    simp only [hsave, Bool.false_eq_true, if_false]
    refine ⟨by simp, ⟨_, rfl, by simp⟩⟩

/-- Witness for C3: on a channel that has already seen nonce `n1`, a
message reusing `n1` with a fresh sequence number is rejected with the
`duplicateNonce` reason, which is `ReplayDetected`-class. -/
theorem C3_witness :
    (validateReplayProtection ReplayEnv.ok
      (some ⟨"e", "A", "B", 0, 0, [⟨"n1", 10000000, 10000000⟩], [], 0⟩)
      "e" "A" "B" (some 1) (some "n1") 10000000 10000000).result.valid = false ∧
    ∃ r, (validateReplayProtection ReplayEnv.ok
      (some ⟨"e", "A", "B", 0, 0, [⟨"n1", 10000000, 10000000⟩], [], 0⟩)
      "e" "A" "B" (some 1) (some "n1") 10000000 10000000).result.reason = some r ∧
      r.isReplayDetected = true := by
  exact (C3_nonce_check ⟨"e", "A", "B", 0, 0, [⟨"n1", 10000000, 10000000⟩], [], 0⟩
    "e" "A" "B" true (by decide) (by decide) (some 1) "n1" (by decide)
    10000000 10000000).1 (by decide)

theorem nonceStage_ok_of (env : ReplayEnv) (doc : MessageSequenceDoc)
    (nonce : Option String) (ts now : Int)
    (hnonce : ∀ m, nonce = some m → m ≠ "" →
      doc.usedNonces.any (fun e => e.nonce == m) = false) :
    ∃ doc3, nonceStage env doc nonce ts now = .ok doc3 ∧
      doc3.recentTimestamps = doc.recentTimestamps := by
  cases nonce with
  | none => exact ⟨doc, rfl, rfl⟩
  | some m =>
    by_cases hm : m = ""
    · subst hm
      exact ⟨doc, by simp [nonceStage], rfl⟩
    · exact ⟨_, nonceStage_fresh hm (hnonce m rfl hm), rfl⟩

/-- C7 counterexample: a message whose timestamp is 10 minutes stale
(beyond the 5-minute window) but whose sequence number is also stale is
rejected with the `sequenceTooOld` reason — a `ReplayDetected`-class
reason, not `StaleTimestamp` — because the sequence check runs first. -/
theorem C7_counterexample :
    TIMESTAMP_WINDOW < |(10000000 : Int) - 9400000| ∧
    (validateReplayProtection ReplayEnv.ok (some ⟨"e", "A", "B", 5, 0, [], [], 0⟩)
      "e" "A" "B" (some 2) (some "n2") 9400000 10000000).result =
      { valid := false, reason := some (ReplayReason.sequenceTooOld 2 6) } ∧
    ReplayReason.isStaleTimestamp (ReplayReason.sequenceTooOld 2 6) = false ∧
    ReplayReason.isReplayDetected (ReplayReason.sequenceTooOld 2 6) = true := by
  exact ⟨by decide, by decide, rfl, rfl⟩

/-- C7 (amended): for a message that passes the sequence and nonce
checks (and carries a nonzero timestamp `ts`), if `|now - ts|` exceeds
the 5-minute window the message is rejected with the
`timestampOutsideWindow` reason — `StaleTimestamp`-class,
distinguishable from `ReplayDetected` — and otherwise the timestamp is
recorded in the persisted `recentTimestamps` bookkeeping list. -/
theorem C7_timestamp_check (doc : MessageSequenceDoc)
    (exchangeId fromUserId toUserId : String) (d : Bool)
    (hne : fromUserId ≠ toUserId)
    (hdir : if d then doc.fromUserId = fromUserId ∧ doc.toUserId = toUserId
            else doc.fromUserId = toUserId ∧ doc.toUserId = fromUserId)
    (seq : Option Int) (nonce : Option String) (ts now : Int)
    (hseq : ∀ sq, seq = some sq → dirCounter d doc + 1 ≤ sq)
    (hnonce : ∀ m, nonce = some m → m ≠ "" →
      (cleanupOldEntries doc now).usedNonces.any (fun e => e.nonce == m) = false)
    (hts : ts ≠ 0) :
    (TIMESTAMP_WINDOW < |now - ts| →
      (validateReplayProtection ReplayEnv.ok (some doc) exchangeId fromUserId toUserId
        seq nonce ts now).result =
        { valid := false, reason := some (ReplayReason.timestampOutsideWindow |now - ts|) } ∧
      ReplayReason.isStaleTimestamp (ReplayReason.timestampOutsideWindow |now - ts|) = true ∧
      ReplayReason.isReplayDetected (ReplayReason.timestampOutsideWindow |now - ts|) = false) ∧
    (|now - ts| ≤ TIMESTAMP_WINDOW →
      (validateReplayProtection ReplayEnv.ok (some doc) exchangeId fromUserId toUserId
        seq nonce ts now).result.valid = true ∧
      ∃ doc', (validateReplayProtection ReplayEnv.ok (some doc) exchangeId fromUserId toUserId
        seq nonce ts now).db = some doc' ∧
        (⟨ts, now⟩ : TimestampEntry) ∈ doc'.recentTimestamps) := by
  have hrun := validate_run_matched ReplayEnv.ok doc exchangeId fromUserId toUserId d
    rfl rfl hne hdir seq nonce ts now
  have hseqok : ∃ doc2, seqStage ReplayEnv.ok d (cleanupOldEntries doc now) seq = .ok doc2 ∧
      doc2.usedNonces = (cleanupOldEntries doc now).usedNonces := by
    cases seq with
    | none => exact ⟨cleanupOldEntries doc now, rfl, rfl⟩
    | some sq =>
      refine ⟨_, seqStage_accept (by simpa using hseq sq rfl), ?_⟩
      cases d <;> rfl
  obtain ⟨doc2, hseqr, hun2⟩ := hseqok
  obtain ⟨doc3, hnonr, hrt3⟩ := nonceStage_ok_of ReplayEnv.ok doc2 nonce ts now
    (by intro m hm hne2; rw [hun2]; exact hnonce m hm hne2)
  constructor
  · intro hw
    rw [hrun]
    simp only [hseqr, hnonr, @timestampStage_reject ReplayEnv.ok doc3 ts now rfl hts hw]
    exact ⟨by trivial, rfl, rfl⟩
  · intro hw
    rw [hrun]
    simp only [hseqr, hnonr, timestampStage_accept hts hw]
    have hsave : ReplayEnv.ok.saveFails = false := rfl
    simp only [hsave, Bool.false_eq_true, if_false]
    refine ⟨by simp, ⟨_, rfl, by simp⟩⟩

/-- Witness for C7: on a fresh channel, a message with sequence 1, an
unused nonce and a timestamp 10 minutes in the past is rejected with
the `timestampOutsideWindow` reason. -/
theorem C7_witness :
    (validateReplayProtection ReplayEnv.ok (some ⟨"e", "A", "B", 0, 0, [], [], 0⟩)
      "e" "A" "B" (some 1) (some "n9") 9400000 10000000).result =
      { valid := false, reason := some (ReplayReason.timestampOutsideWindow 600000) } := by
  have h := (C7_timestamp_check ⟨"e", "A", "B", 0, 0, [], [], 0⟩ "e" "A" "B" true
    (by decide) (by decide) (some 1) (some "n9") 9400000 10000000
    (by intro sq hsq; rw [Option.some.injEq] at hsq; subst hsq; decide)
    (by intro m hm hne2; rw [Option.some.injEq] at hm; subst hm; decide)
    (by decide)).1 (by decide)
  simpa using h.1

/-- C9 counterexample: a message whose sequence number field is absent
but whose nonce was already seen is still rejected on replay grounds
(`duplicateNonce`, a `ReplayDetected`-class reason): absence of the
sequence number does not skip the whole replay validation. -/
theorem C9_counterexample :
    (validateReplayProtection ReplayEnv.ok
      (some ⟨"e", "A", "B", 0, 0, [⟨"n1", 10000000, 10000000⟩], [], 0⟩)
      "e" "A" "B" none (some "n1") 10000000 10000000).result =
      { valid := false, reason := some (ReplayReason.duplicateNonce "n1") } ∧
    ReplayReason.isReplayDetected (ReplayReason.duplicateNonce "n1") = true := by
  exact ⟨by decide, rfl⟩

/-- C9 (amended): when the sequence number is absent (undefined/null),
only the sequence check is skipped: the message is never rejected with
a stale-sequence reason and the persisted per-direction counters are
unchanged, but nonce and timestamp validation still run, so the message
can still be rejected on replay grounds. -/
theorem C9_sequence_number_absent (env : ReplayEnv) (doc : MessageSequenceDoc)
    (exchangeId fromUserId toUserId : String) (nonce : Option String) (ts now : Int) :
    (∀ rc e, (validateReplayProtection env (some doc) exchangeId fromUserId toUserId
      none nonce ts now).result.reason ≠ some (ReplayReason.sequenceTooOld rc e)) ∧
    (∀ doc', (validateReplayProtection env (some doc) exchangeId fromUserId toUserId
      none nonce ts now).db = some doc' →
      doc'.sequenceFromTo = doc.sequenceFromTo ∧
      doc'.sequenceToFrom = doc.sequenceToFrom) := by
  constructor
  · intro rc e
    simp only [validateReplayProtection, Option.getD_some, seqStage]
    split
    · simp [failOpenResult]
    · split
      · simp [failOpenResult]
      · split
        · simp
        · split
          · rename_i r hnonerr
            rcases nonceStage_error_shape hnonerr with ⟨_, h1⟩ | ⟨_, m, h1⟩ <;>
              simp [h1, failOpenResult]
          · split
            · rename_i r htserr
              rcases timestampStage_error_shape htserr with ⟨_, h1⟩ | ⟨_, dd, h1⟩ <;>
                simp [h1, failOpenResult]
            · split
              · simp [failOpenResult]
              · simp
  · intro doc' h
    simp only [validateReplayProtection, Option.getD_some, seqStage] at h
    split at h
    · replace h : some doc = some doc' := h
      injection h with h2
      subst h2
      exact ⟨rfl, rfl⟩
    · split at h
      · replace h : some doc = some doc' := h
        injection h with h2
        subst h2
        exact ⟨rfl, rfl⟩
      · split at h
        · replace h : some (cleanupOldEntries doc now) = some doc' := h
          injection h with h2
          subst h2
          exact ⟨rfl, rfl⟩
        · split at h
          · replace h : some (cleanupOldEntries doc now) = some doc' := h
            injection h with h2
            subst h2
            exact ⟨rfl, rfl⟩
          · rename_i doc3 hnonok
            split at h
            · replace h : some (cleanupOldEntries doc now) = some doc' := h
              injection h with h2
              subst h2
              exact ⟨rfl, rfl⟩
            · rename_i doc4 htsok
              have e3 := nonceStage_ok_fields hnonok
              have e4 := timestampStage_ok_fields htsok
              split at h
              · replace h : some (cleanupOldEntries doc now) = some doc' := h
                injection h with h2
                subst h2
                exact ⟨rfl, rfl⟩
              · replace h : some { doc4 with lastUpdated := now } = some doc' := h
                injection h with h2
                subst h2
                constructor
                · show doc4.sequenceFromTo = doc.sequenceFromTo
                  rw [e4.1, e3.1]
                  rfl
                · show doc4.sequenceToFrom = doc.sequenceToFrom
                  rw [e4.2.1, e3.2.1]
                  rfl

/-- Witness for C9 (amended): for a concrete channel and a message with
no sequence number, the rejection reason is the duplicate nonce (not a
stale sequence) and the persisted counters are unchanged. -/
theorem C9_witness :
    ((validateReplayProtection ReplayEnv.ok
      (some ⟨"e", "A", "B", 3, 4, [⟨"n1", 10000000, 10000000⟩], [], 0⟩)
      "e" "A" "B" none (some "n1") 10000000 10000000).result.reason ≠
        some (ReplayReason.sequenceTooOld 1 4)) ∧
    ((validateReplayProtection ReplayEnv.ok
      (some ⟨"e", "A", "B", 3, 4, [⟨"n1", 10000000, 10000000⟩], [], 0⟩)
      "e" "A" "B" none (some "n1") 10000000 10000000).db =
      some ⟨"e", "A", "B", 3, 4, [⟨"n1", 10000000, 10000000⟩], [], 0⟩ →
      (⟨"e", "A", "B", 3, 4, [⟨"n1", 10000000, 10000000⟩], [], 0⟩
        : MessageSequenceDoc).sequenceFromTo = 3) := by
  have h := C9_sequence_number_absent ReplayEnv.ok
    ⟨"e", "A", "B", 3, 4, [⟨"n1", 10000000, 10000000⟩], [], 0⟩
    "e" "A" "B" (some "n1") 10000000 10000000
  exact ⟨h.1 1 4, fun _ => rfl⟩

/-! ## KeyExchangeProtocol (frontend/src/utils/keyExchange.js)

The Web Crypto primitives used by the protocol (RSA-PSS sign/verify,
ECDH `deriveBits`, HKDF `deriveKey`, HMAC-SHA256) are platform code,
not repository code; they enter the embedding as an abstract
environment of deterministic functions, together with the randomness
the protocol draws (the responder ephemeral key pair and response
nonce).  Key bytes are `List Nat`; exported/serialized keys, nonces and
signatures are `String`. -/

structure KXEnv where
  verify : String → String → String → Bool
  sign : String → String → String
  ecdh : String → String → List Nat
  hkdf : List Nat → String → String → String → List Nat
  hmacSHA256 : List Nat → String → String
  ephemeralPair : String × String
  freshNonce : String
  nowMs : Int

/-- The key material handed to HMAC by `createKeyConfirmation`
(keyExchange.js lines 245-254): `importKey('raw',
exportKey('raw', sessionKey))`, i.e. the session key's own raw bytes,
unchanged. -/
def keyConfirmationKeyMaterial (sessionKey : List Nat) : List Nat :=
  sessionKey

/-- The HMAC input message of `createKeyConfirmation`
(line 257): the template literal `KeyConfirmation-` followed by the
nonce. -/
def keyConfirmationMessage (nonce : String) : String :=
  "KeyConfirmation-" ++ nonce

/-- `createKeyConfirmation` (keyExchange.js lines 241-269). -/
def createKeyConfirmation (env : KXEnv) (sessionKey : List Nat) (nonce : String) : String :=
  env.hmacSHA256 (keyConfirmationKeyMaterial sessionKey) (keyConfirmationMessage nonce)

/-- `verifyKeyConfirmation` (keyExchange.js lines 278-286): string
equality between the received HMAC and a recomputed one. -/
def verifyKeyConfirmation (env : KXEnv) (sessionKey : List Nat) (nonce hmac : String) : Bool :=
  hmac == createKeyConfirmation env sessionKey nonce

def jsonStrField (k v : String) : String :=
  "\"" ++ k ++ "\":\"" ++ v ++ "\""

def jsonNumField (k : String) (v : Int) : String :=
  "\"" ++ k ++ "\":" ++ toString v

/-- The canonical initiation message: `JSON.stringify` of
`\x7bephemeralPublicKey, fromUserId, nonce, timestamp, toUserId\x7d` with
sorted keys (already alphabetical), built identically by
`initiateKeyExchange` (lines 306-315) and `respondToKeyExchange`
(lines 365-374). -/
def initCanonicalMessage (ephemeralPublicKey fromUserId nonce : String)
    (timestamp : Int) (toUserId : String) : String :=
  "\x7b" ++ jsonStrField ("ephemeralPublicKey") ephemeralPublicKey ++ "," ++
    jsonStrField ("fromUserId") fromUserId ++ "," ++
    jsonStrField ("nonce") nonce ++ "," ++
    jsonNumField ("timestamp") timestamp ++ "," ++
    jsonStrField ("toUserId") toUserId ++ "\x7d"

/-- The canonical response message: `JSON.stringify` of
`\x7bexchangeId, ephemeralPublicKey, keyConfirmation, timestamp, nonce\x7d`
with sorted keys (alphabetical order of the five keys), built
identically by `respondToKeyExchange` (lines 408-417) and
`completeKeyExchange` (lines 469-478). -/
def responseCanonicalMessage (exchangeId ephemeralPublicKey keyConfirmation : String)
    (timestamp : Int) (nonce : String) : String :=
  "\x7b" ++ jsonStrField ("ephemeralPublicKey") ephemeralPublicKey ++ "," ++
    jsonStrField ("exchangeId") exchangeId ++ "," ++
    jsonStrField ("keyConfirmation") keyConfirmation ++ "," ++
    jsonStrField ("nonce") nonce ++ "," ++
    jsonNumField ("timestamp") timestamp ++ "\x7d"

/-- Observable key-material operations of the exchange functions, in
program order. -/
inductive KXEffect where
  | loadEphemeralKeyPair (exchangeId : String)
  | generateEphemeralKeyPair
  | deriveSharedSecretOp
  | deriveSessionKeyOp
  | createKeyConfirmationOp
  | apiPost (path : String)
  | storeSessionKeyOp (exchangeId : String)
  deriving Repr, DecidableEq

/-- Operations that generate, derive or store key material (the ones
the spec forbids after a failed signature check). -/
def KXEffect.isKeyMaterialOp : KXEffect → Bool
  | .generateEphemeralKeyPair => true
  | .deriveSharedSecretOp => true
  | .deriveSessionKeyOp => true
  | .storeSessionKeyOp _ => true
  | _ => false

inductive KXError where
  | signatureInvalid
  | keyConfirmationFailed
  | ephemeralKeyMissing
  deriving Repr, DecidableEq

/-- `respondToKeyExchange` (keyExchange.js lines 351-437): verify the
initiator signature over the re-derived canonical initiation message;
on failure throw (`Invalid signature from initiator`); on success
generate an ephemeral pair, derive the shared secret and session key,
build and sign the response, post it, and store the session key.  The
second component is the trace of key-material/API operations that
actually executed. -/
def respondToKeyExchange (env : KXEnv)
    (exchangeId fromUserId toUserId username initiatorPublicKey initiatorSignature
     initiatorRSAKey : String) (timestamp : Int) (nonce : String) :
    Except KXError (List Nat × String) × List KXEffect :=
  let messageString := initCanonicalMessage initiatorPublicKey fromUserId nonce timestamp toUserId
  if env.verify messageString initiatorSignature initiatorRSAKey = false then
    (.error .signatureInvalid, [])
  else
    let ephemeralPublicKey := env.ephemeralPair.1
    let sharedSecret := env.ecdh env.ephemeralPair.2 initiatorPublicKey
    let responseNonce := env.freshNonce
    let sessionKey := env.hkdf sharedSecret fromUserId toUserId responseNonce
    let keyConfirmation := createKeyConfirmation env sessionKey responseNonce
    let responseMessageString :=
      responseCanonicalMessage exchangeId ephemeralPublicKey keyConfirmation env.nowMs responseNonce
    let _signature := env.sign responseMessageString username
    (.ok (sessionKey, exchangeId),
     [.generateEphemeralKeyPair, .deriveSharedSecretOp, .deriveSessionKeyOp,
      .createKeyConfirmationOp, .apiPost ("/key-exchange/respond"),
      .storeSessionKeyOp exchangeId])

/-- `completeKeyExchange` (keyExchange.js lines 452-519): load the
retained ephemeral pair, verify the responder signature over the
re-derived canonical response message (fail closed on mismatch), derive
the shared secret and session key, recompute and compare the key
confirmation, then store the session key and post the confirmation. -/
def completeKeyExchange (env : KXEnv) (ephemeralStore : Option (String × String))
    (exchangeId fromUserId toUserId responderPublicKey keyConfirmation nonce
     responderSignature responderRSAKey : String) (responseTimestamp : Int) :
    Except KXError (List Nat) × List KXEffect :=
  match ephemeralStore with
  | none => (.error .ephemeralKeyMissing, [.loadEphemeralKeyPair exchangeId])
  | some ephemeralKeyPair =>
    let messageString :=
      responseCanonicalMessage exchangeId responderPublicKey keyConfirmation responseTimestamp nonce
    if env.verify messageString responderSignature responderRSAKey = false then
      (.error .signatureInvalid, [.loadEphemeralKeyPair exchangeId])
    else
      let sharedSecret := env.ecdh ephemeralKeyPair.2 responderPublicKey
      let sessionKey := env.hkdf sharedSecret fromUserId toUserId nonce
      if verifyKeyConfirmation env sessionKey nonce keyConfirmation = false then
        (.error .keyConfirmationFailed,
         [.loadEphemeralKeyPair exchangeId, .deriveSharedSecretOp, .deriveSessionKeyOp])
      else
        (.ok sessionKey,
         [.loadEphemeralKeyPair exchangeId, .deriveSharedSecretOp, .deriveSessionKeyOp,
          .storeSessionKeyOp exchangeId, .apiPost ("/key-exchange/confirm")])

/-- C4: whenever the counterpart signature fails to verify against the
counterpart long-lived public key, Respond (`respondToKeyExchange`) and
Confirm (`completeKeyExchange`) fail closed with `signatureInvalid`:
they throw before any ephemeral key generation, shared-secret
derivation, session-key derivation or session-key storage takes place
(the executed-operation trace contains no key-material operation), and
never continue past the failure. -/
theorem C4_signature_fail_closed (env : KXEnv)
    (exchangeId fromUserId toUserId username initiatorPublicKey initiatorSignature
     initiatorRSAKey nonce responderPublicKey keyConfirmation responseNonce
     responderSignature responderRSAKey : String) (timestamp responseTimestamp : Int)
    (pair : String × String) :
    (env.verify (initCanonicalMessage initiatorPublicKey fromUserId nonce timestamp toUserId)
        initiatorSignature initiatorRSAKey = false →
      respondToKeyExchange env exchangeId fromUserId toUserId username initiatorPublicKey
        initiatorSignature initiatorRSAKey timestamp nonce =
        (.error .signatureInvalid, []) ∧
      ∀ e ∈ (respondToKeyExchange env exchangeId fromUserId toUserId username
        initiatorPublicKey initiatorSignature initiatorRSAKey timestamp nonce).2,
        e.isKeyMaterialOp = false) ∧
    (env.verify (responseCanonicalMessage exchangeId responderPublicKey keyConfirmation
        responseTimestamp responseNonce) responderSignature responderRSAKey = false →
      completeKeyExchange env (some pair) exchangeId fromUserId toUserId responderPublicKey
        keyConfirmation responseNonce responderSignature responderRSAKey responseTimestamp =
        (.error .signatureInvalid, [.loadEphemeralKeyPair exchangeId]) ∧
      ∀ e ∈ (completeKeyExchange env (some pair) exchangeId fromUserId toUserId
        responderPublicKey keyConfirmation responseNonce responderSignature responderRSAKey
        responseTimestamp).2, e.isKeyMaterialOp = false) := by
  constructor
  · intro hv
    have heq : respondToKeyExchange env exchangeId fromUserId toUserId username
        initiatorPublicKey initiatorSignature initiatorRSAKey timestamp nonce =
        (.error .signatureInvalid, []) := by
      simp only [respondToKeyExchange]
      rw [if_pos hv]
    refine ⟨heq, ?_⟩
    rw [heq]
    intro e he
    simp at he
  · intro hv
    have heq : completeKeyExchange env (some pair) exchangeId fromUserId toUserId
        responderPublicKey keyConfirmation responseNonce responderSignature responderRSAKey
        responseTimestamp = (.error .signatureInvalid, [.loadEphemeralKeyPair exchangeId]) := by
      simp only [completeKeyExchange]
      rw [if_pos hv]
    refine ⟨heq, ?_⟩
    rw [heq]
    intro e he
    simp at he
    subst he
    rfl

/-- Witness for C4: a concrete environment whose verifier rejects
everything makes both Respond and Confirm return `signatureInvalid`
with no key-material operation executed. -/
theorem C4_witness :
    respondToKeyExchange
      ⟨fun _ _ _ => false, fun _ _ => "", fun _ _ => [], fun _ _ _ _ => [],
       fun _ _ => "", ("pub", "priv"), "rn", 0⟩
      "e" "A" "B" "alice" "ipk" "isig" "irsa" 5 "n0" =
      (.error .signatureInvalid, []) ∧
    completeKeyExchange
      ⟨fun _ _ _ => false, fun _ _ => "", fun _ _ => [], fun _ _ _ _ => [],
       fun _ _ => "", ("pub", "priv"), "rn", 0⟩
      (some ("epub", "epriv")) "e" "A" "B" "rpk" "kc" "n1" "rsig" "rrsa" 6 =
      (.error .signatureInvalid, [.loadEphemeralKeyPair ("e")]) := by
  have h := C4_signature_fail_closed
    ⟨fun _ _ _ => false, fun _ _ => "", fun _ _ => [], fun _ _ _ _ => [],
     fun _ _ => "", ("pub", "priv"), "rn", 0⟩
    "e" "A" "B" "alice" "ipk" "isig" "irsa" "n0" "rpk" "kc" "n1" "rsig" "rrsa" 5 6
    ("epub", "epriv")
  exact ⟨(h.1 rfl).1, (h.2 rfl).1⟩

/-- C5: with the retained ephemeral pair available, the initiator
Confirm (`completeKeyExchange`) succeeds iff the responder signature
over the canonical response message verifies and the key-confirmation
tag the initiator recomputes from its own derived session key is
byte-equal to the tag the responder sent; on success the returned key
is exactly the locally derived session key, and when the confirmation
MAC is injective in the key, success forces the initiator-derived key
to equal any responder key whose confirmation tag was sent — the
identical session key, never transmitted. -/
theorem C5_confirm_success_iff (env : KXEnv) (pair : String × String)
    (exchangeId fromUserId toUserId responderPublicKey keyConfirmation nonce
     responderSignature responderRSAKey : String) (responseTimestamp : Int) :
    ((∃ k, (completeKeyExchange env (some pair) exchangeId fromUserId toUserId
        responderPublicKey keyConfirmation nonce responderSignature responderRSAKey
        responseTimestamp).1 = .ok k) ↔
      (env.verify (responseCanonicalMessage exchangeId responderPublicKey keyConfirmation
          responseTimestamp nonce) responderSignature responderRSAKey = true ∧
       keyConfirmation = createKeyConfirmation env
         (env.hkdf (env.ecdh pair.2 responderPublicKey) fromUserId toUserId nonce) nonce)) ∧
    (∀ k, (completeKeyExchange env (some pair) exchangeId fromUserId toUserId
        responderPublicKey keyConfirmation nonce responderSignature responderRSAKey
        responseTimestamp).1 = .ok k →
      k = env.hkdf (env.ecdh pair.2 responderPublicKey) fromUserId toUserId nonce) ∧
    (∀ responderKey : List Nat,
      keyConfirmation = createKeyConfirmation env responderKey nonce →
      Function.Injective
        (fun kk : List Nat => env.hmacSHA256 kk (keyConfirmationMessage nonce)) →
      (∃ k, (completeKeyExchange env (some pair) exchangeId fromUserId toUserId
        responderPublicKey keyConfirmation nonce responderSignature responderRSAKey
        responseTimestamp).1 = .ok k) →
      env.hkdf (env.ecdh pair.2 responderPublicKey) fromUserId toUserId nonce
        = responderKey) := by
  by_cases hv : env.verify (responseCanonicalMessage exchangeId responderPublicKey
      keyConfirmation responseTimestamp nonce) responderSignature responderRSAKey = false
  · have heq : (completeKeyExchange env (some pair) exchangeId fromUserId toUserId
        responderPublicKey keyConfirmation nonce responderSignature responderRSAKey
        responseTimestamp).1 = .error .signatureInvalid := by
      simp only [completeKeyExchange]
      rw [if_pos hv]
    refine ⟨?_, ?_, ?_⟩
    · rw [heq]
      constructor
      · rintro ⟨k, hk⟩
        exact Except.noConfusion hk
      · rintro ⟨hvt, hrest⟩
        rw [hvt] at hv
        exact absurd hv (by simp)
    · intro k hk
      rw [heq] at hk
      exact Except.noConfusion hk
    · rintro responderKey hx hy ⟨k, hk⟩
      rw [heq] at hk
      exact Except.noConfusion hk
  · replace hv : env.verify (responseCanonicalMessage exchangeId responderPublicKey
        keyConfirmation responseTimestamp nonce) responderSignature responderRSAKey = true := by
      revert hv
      cases env.verify (responseCanonicalMessage exchangeId responderPublicKey
        keyConfirmation responseTimestamp nonce) responderSignature responderRSAKey <;> simp
    by_cases hc : verifyKeyConfirmation env
        (env.hkdf (env.ecdh pair.2 responderPublicKey) fromUserId toUserId nonce)
        nonce keyConfirmation = false
    · have heq : (completeKeyExchange env (some pair) exchangeId fromUserId toUserId
          responderPublicKey keyConfirmation nonce responderSignature responderRSAKey
          responseTimestamp).1 = .error .keyConfirmationFailed := by
        simp only [completeKeyExchange]
        rw [if_neg (by simp [hv]), if_pos hc]
      have hne2 : keyConfirmation ≠ createKeyConfirmation env
          (env.hkdf (env.ecdh pair.2 responderPublicKey) fromUserId toUserId nonce) nonce := by
        intro hcontra
        rw [verifyKeyConfirmation, beq_eq_false_iff_ne] at hc
        exact hc hcontra
      refine ⟨?_, ?_, ?_⟩
      · rw [heq]
        constructor
        · rintro ⟨k, hk⟩
          exact Except.noConfusion hk
        · rintro ⟨hx, htag⟩
          exact absurd htag hne2
      · intro k hk
        rw [heq] at hk
        exact Except.noConfusion hk
      · rintro responderKey hx hy ⟨k, hk⟩
        rw [heq] at hk
        exact Except.noConfusion hk
    · have htag : keyConfirmation = createKeyConfirmation env
          (env.hkdf (env.ecdh pair.2 responderPublicKey) fromUserId toUserId nonce) nonce := by
        revert hc
        simp only [verifyKeyConfirmation]
        cases hbe : keyConfirmation == createKeyConfirmation env
            (env.hkdf (env.ecdh pair.2 responderPublicKey) fromUserId toUserId nonce) nonce
        · intro hcf
          exact absurd rfl hcf
        · intro _
          exact eq_of_beq hbe
      have heq : (completeKeyExchange env (some pair) exchangeId fromUserId toUserId
          responderPublicKey keyConfirmation nonce responderSignature responderRSAKey
          responseTimestamp).1 =
          .ok (env.hkdf (env.ecdh pair.2 responderPublicKey) fromUserId toUserId nonce) := by
        simp only [completeKeyExchange]
        rw [if_neg (by simp [hv]), if_neg hc]
      refine ⟨?_, ?_, ?_⟩
      · rw [heq]
        exact ⟨fun _ => ⟨hv, htag⟩, fun _ => ⟨_, rfl⟩⟩
      · intro k hk
        rw [heq] at hk
        injection hk with hk2
        exact hk2.symm
      · intro responderKey hrk hinj hexists
        have : createKeyConfirmation env
            (env.hkdf (env.ecdh pair.2 responderPublicKey) fromUserId toUserId nonce) nonce =
            createKeyConfirmation env responderKey nonce := by
          rw [← htag, hrk]
        exact hinj this

/-- Witness for C5: a concrete environment (identity-like injective
MAC) on which Confirm succeeds, returning the derived key `[2]`, and
the responder key that produced the sent tag is forced to equal it. -/
theorem C5_witness :
    ((completeKeyExchange
      ⟨fun _ _ _ => true, fun _ _ => "", fun _ _ => [1], fun _ _ _ _ => [2],
       fun k _ => String.mk (List.replicate (encodeL k) ('a')), ("pub", "priv"), "rn", 0⟩
      (some ("epub", "epriv")) "e" "A" "B" "rpk"
      (String.mk (List.replicate 7 ('a'))) "n" "rsig" "rrsa" 6).1 = .ok [2]) ∧
    ((2 : Int) = 2) := by
  have h := C5_confirm_success_iff
    ⟨fun _ _ _ => true, fun _ _ => "", fun _ _ => [1], fun _ _ _ _ => [2],
     fun k _ => String.mk (List.replicate (encodeL k) ('a')), ("pub", "priv"), "rn", 0⟩
    ("epub", "epriv") "e" "A" "B" "rpk"
    (String.mk (List.replicate 7 ('a'))) "n" "rsig" "rrsa" 6
  obtain ⟨k, hk⟩ := h.1.mpr ⟨rfl, by decide⟩
  have hk2 := h.2.1 k hk
  subst hk2
  exact ⟨hk, rfl⟩

/-- C8 counterexample: the HMAC key material that
`createKeyConfirmation` uses is exactly the raw session key bytes —
`importKey('raw', await exportKey('raw', sessionKey))` re-imports the
same bytes with no derivation — refuting the claim that the tag is
computed with key material derived from the session key rather than
the raw session key bytes themselves. -/
theorem C8_counterexample :
    keyConfirmationKeyMaterial [1, 2, 3] = [1, 2, 3] ∧
    keyConfirmationMessage ("n1") = "KeyConfirmation-n1" :=
  ⟨rfl, rfl⟩

/-- C8 (amended): the key-confirmation tag is an HMAC-SHA256 over the
string `KeyConfirmation-` concatenated with the nonce, keyed directly
with the raw session key bytes (no separate key derivation); the
verification side compares tags by byte equality of the same
construction. -/
theorem C8_key_confirmation_structure (env : KXEnv) (sessionKey : List Nat)
    (nonce tag : String) :
    createKeyConfirmation env sessionKey nonce =
      env.hmacSHA256 sessionKey (("KeyConfirmation-") ++ nonce) ∧
    keyConfirmationKeyMaterial sessionKey = sessionKey ∧
    (verifyKeyConfirmation env sessionKey nonce tag = true ↔
      tag = env.hmacSHA256 sessionKey (("KeyConfirmation-") ++ nonce)) := by
  refine ⟨rfl, rfl, ?_⟩
  rw [verifyKeyConfirmation]
  exact beq_iff_eq

/-! ## Client sequence manager (frontend/src/utils/sequenceManager.js) -/

/-- The per-exchange record stored in the `messageSequences` IndexedDB
object store. -/
structure ClientSeqData where
  exchangeId : String
  fromUserId : String
  toUserId : String
  sequenceFromTo : Int
  sequenceToFrom : Int
  deriving Repr, DecidableEq

/-- `getNextSequenceNumber` (sequenceManager.js lines 38-108) as a pure
function of the stored record: resolve or create the record, compute
the direction booleans against the stored pair, on a full mismatch
rebind the record to the requested pair and zero both counters (the
direction booleans are NOT recomputed), then increment and store the
counter selected by the stale `isFromTo` and return the new value. -/
def getNextSequenceNumber (stored : Option ClientSeqData)
    (exchangeId fromUserId toUserId : String) : Int × ClientSeqData :=
  let sequenceData := stored.getD ⟨exchangeId, fromUserId, toUserId, 0, 0⟩
  let isFromTo := sequenceData.fromUserId == fromUserId && sequenceData.toUserId == toUserId
  let isToFrom := sequenceData.fromUserId == toUserId && sequenceData.toUserId == fromUserId
  let sequenceData :=
    if !isFromTo && !isToFrom then
      { sequenceData with
          fromUserId := fromUserId
          toUserId := toUserId
          sequenceFromTo := 0
          sequenceToFrom := 0 }
    else sequenceData
  let currentSequence :=
    if isFromTo then sequenceData.sequenceFromTo else sequenceData.sequenceToFrom
  let nextSequence := currentSequence + 1
  let sequenceData :=
    if isFromTo then { sequenceData with sequenceFromTo := nextSequence }
    else { sequenceData with sequenceToFrom := nextSequence }
  (nextSequence, sequenceData)

/-- C10: when `getNextSequenceNumber` is called for an exchange whose
stored record binds a different participant pair (neither direction
matches), the call does not reject: it silently rebinds the record to
the requested pair and resets both direction counters to 0, so the
issued sequence number is 1 (the increment lands on the `toFrom`
counter because the direction booleans were computed before the
rebind). -/
theorem C10_pair_mismatch_rebinds (data : ClientSeqData)
    (exchangeId fromUserId toUserId : String)
    (hmm1 : ¬(data.fromUserId = fromUserId ∧ data.toUserId = toUserId))
    (hmm2 : ¬(data.fromUserId = toUserId ∧ data.toUserId = fromUserId)) :
    (getNextSequenceNumber (some data) exchangeId fromUserId toUserId).1 = 1 ∧
    (getNextSequenceNumber (some data) exchangeId fromUserId toUserId).2.fromUserId
      = fromUserId ∧
    (getNextSequenceNumber (some data) exchangeId fromUserId toUserId).2.toUserId
      = toUserId ∧
    (getNextSequenceNumber (some data) exchangeId fromUserId toUserId).2.sequenceFromTo = 0 ∧
    (getNextSequenceNumber (some data) exchangeId fromUserId toUserId).2.sequenceToFrom = 1 := by
  have h1 : (data.fromUserId == fromUserId && data.toUserId == toUserId) = false := by
    by_contra hc
    simp only [Bool.not_eq_false, Bool.and_eq_true, beq_iff_eq] at hc
    exact hmm1 hc
  have h2 : (data.fromUserId == toUserId && data.toUserId == fromUserId) = false := by
    by_contra hc
    simp only [Bool.not_eq_false, Bool.and_eq_true, beq_iff_eq] at hc
    exact hmm2 hc
  simp only [getNextSequenceNumber, Option.getD_some, h1, h2, Bool.not_false,
    Bool.and_self, if_true, Bool.false_eq_true, if_false]
  norm_num

/-- Witness for C10: a record bound to the pair (A, B) queried for the
pair (C, D) issues sequence number 1 and comes back rebound with
counters (0, 1). -/
theorem C10_witness :
    (getNextSequenceNumber (some ⟨"e", "A", "B", 5, 7⟩) "e" "C" "D").1 = 1 ∧
    (getNextSequenceNumber (some ⟨"e", "A", "B", 5, 7⟩) "e" "C" "D").2.fromUserId = "C" ∧
    (getNextSequenceNumber (some ⟨"e", "A", "B", 5, 7⟩) "e" "C" "D").2.toUserId = "D" ∧
    (getNextSequenceNumber (some ⟨"e", "A", "B", 5, 7⟩) "e" "C" "D").2.sequenceFromTo = 0 ∧
    (getNextSequenceNumber (some ⟨"e", "A", "B", 5, 7⟩) "e" "C" "D").2.sequenceToFrom = 1 :=
  C10_pair_mismatch_rebinds ⟨"e", "A", "B", 5, 7⟩ "e" "C" "D" (by decide) (by decide)

end E2EE
